import Mathlib

/-!
Verification of the urban-backend service (src/main.py): a shallow embedding
of its data model and request handlers, with theorems settling the spec's
claims about them.

Conventions of the embedding:
* The two in-memory stores `users_db` and `reports_db` are passed to each
  handler explicitly as lists; a handler that mutates a store returns the new
  list on success.
* `raise HTTPException(...)` becomes `Except.error` of an `HTTPException`
  value; uncaught Python errors (a `KeyError` on dictionary access, a pydantic
  `ValidationError` when a required-`str` field receives `None`) become
  `Except.error` of a `PyError` value.
* A stored report is the dictionary `report.dict()` produced by the pydantic
  `Report` model: the eight declared keys are always present (an `Optional`
  field holds `None`, modelled `none`), while the three keys `seriousness`,
  `status` and `date` are never written by any handler, so in a stored record
  `none` for one of those three means the key is absent.  Consequently
  `report.get("category", "Other")` returns the stored value (possibly `None`)
  and never the default, because the key itself always exists, whereas
  `report.get("seriousness", "Moderate")` does fall back to the default.
-/

namespace UrbanBackend

/-- The pydantic `User` request model.  Every field is declared `str`; the
source comment on `email` promises address validation, but the declared type
is plain `str` (not `EmailStr`), so no syntactic check ever runs. -/
structure User where
  name : String
  email : String
  password : String
  role : String
  phone : String
  location : String
deriving DecidableEq

/-- The pydantic `UserLogin` request model. -/
structure UserLogin where
  email : String
  password : String
deriving DecidableEq

/-- The pydantic `Report` request model (submission payload). -/
structure Report where
  email : String
  type : String
  category : Option String
  issue : String
  description : String
  location : String
  photo : Option String
  alertLevel : Option String
deriving DecidableEq

/-- A record of `reports_db`: the dictionary `report.dict()` plus the three
keys (`seriousness`, `status`, `date`) that the read-side handlers consult
with `.get`/`[...]` but that submission never writes.  For those three fields
`none` means the key is absent from the dictionary. -/
structure StoredReport where
  email : String
  type : String
  category : Option String
  issue : String
  description : String
  location : String
  photo : Option String
  alertLevel : Option String
  seriousness : Option String
  status : Option String
  date : Option String
deriving DecidableEq

/-- `fastapi.HTTPException` with its status code and detail message. -/
structure HTTPException where
  status_code : Nat
  detail : String
deriving DecidableEq

/-- An uncaught Python error escaping a handler: a `KeyError` on dictionary
access, or a pydantic `ValidationError` naming the offending field. -/
inductive PyError where
  | keyError (key : String)
  | validationError (field : String)
deriving DecidableEq

/-- Response model `ReportOut` of `GET /reports`; `category` and
`seriousness` are declared `str`, so pydantic rejects `None` for them. -/
structure ReportOut where
  id : Nat
  title : String
  category : String
  location : String
  seriousness : String
  description : String
deriving DecidableEq

/-- Response model `UserStats`. -/
structure UserStats where
  totalReports : Nat
  resolvedReports : Nat
  unresolvedReports : Nat
deriving DecidableEq

/-- Response model `ReportHistoryItem`; `category` is declared `str`. -/
structure ReportHistoryItem where
  id : Nat
  title : String
  category : String
  status : String
deriving DecidableEq

/-- Response model `UserDashboardResponse`. -/
structure UserDashboardResponse where
  userStats : UserStats
  reportHistory : List ReportHistoryItem
  notifications : List String
deriving DecidableEq

/-- Response model `GlobalStats`. -/
structure GlobalStats where
  totalReports : Nat
  resolvedReports : Nat
  unresolvedReports : Nat
  highPriorityReports : Nat
deriving DecidableEq

/-- Response model `IssueByCategory`; `category` is declared `str`. -/
structure IssueByCategory where
  category : String
  count : Nat
deriving DecidableEq

/-- Response model `IssueBySeriousness`. -/
structure IssueBySeriousness where
  seriousness : String
  count : Nat
deriving DecidableEq

/-- Response model `IssueManagementItem`; `category` and `date` are declared
`str`. -/
structure IssueManagementItem where
  id : Nat
  title : String
  category : String
  date : String
  seriousness : String
  status : String
deriving DecidableEq

/-- Response model `AuthorityDashboardResponse`. -/
structure AuthorityDashboardResponse where
  globalStats : GlobalStats
  issuesByCategory : List IssueByCategory
  issuesBySeriousness : List IssueBySeriousness
  issueList : List IssueManagementItem
deriving DecidableEq

/-- The success payload of `POST /login`: the subset of the user record that
the handler returns (`password` is not among its fields). -/
structure LoginOut where
  name : String
  email : String
  role : String
  location : String
deriving DecidableEq

/-- Python truthiness of an `Optional[str]` under `not`: `None` and the empty
string are falsy, every other string is truthy. -/
def is_falsy : Option String → Bool
  | none => true
  | some s => s == ""

/-- Reading key `field` holding `o` out of a response-model constructor:
pydantic validation fails when a required-`str` field receives `None`. -/
def req_str (field : String) : Option String → Except PyError String
  | some s => Except.ok s
  | none => Except.error (PyError.validationError field)

/-- `report[field]` on a dictionary where `none` means the key is absent:
a missing key raises `KeyError`. -/
def key_str (field : String) : Option String → Except PyError String
  | some s => Except.ok s
  | none => Except.error (PyError.keyError field)

/-- `POST /register` (`register_user` in src/main.py): reject a duplicate
email with status 400, otherwise append `user.dict()` to `users_db`. -/
def register_user (users_db : List User) (user : User) :
    Except HTTPException (List User) :=
  if users_db.any (fun u => u.email == user.email) then
    Except.error ⟨400, "User with this email already exists"⟩
  else
    Except.ok (users_db ++ [user])

/-- `POST /login` (`login_user` in src/main.py): find the first user with the
given email; status 401 when there is none or the password differs. -/
def login_user (users_db : List User) (user : UserLogin) :
    Except HTTPException LoginOut :=
  match users_db.find? (fun u => u.email == user.email) with
  | none => Except.error ⟨401, "Invalid email or password"⟩
  | some found_user =>
    if found_user.password == user.password then
      Except.ok ⟨found_user.name, found_user.email, found_user.role,
        found_user.location⟩
    else
      Except.error ⟨401, "Invalid email or password"⟩

/-- `report.dict()`: the stored dictionary for a submitted report.  The eight
declared keys are copied; `seriousness`, `status` and `date` are absent. -/
def dict_of_report (report : Report) : StoredReport :=
  ⟨report.email, report.type, report.category, report.issue,
   report.description, report.location, report.photo, report.alertLevel,
   none, none, none⟩

/-- `POST /report` (`submit_report` in src/main.py): 404 when no user has the
email, 400 when an authority report has a falsy category or a community
report has a falsy alert level, otherwise append `report.dict()`. -/
def submit_report (users_db : List User) (reports_db : List StoredReport)
    (report : Report) : Except HTTPException (List StoredReport) :=
  if !(users_db.any (fun user => user.email == report.email)) then
    Except.error ⟨404, "User not found"⟩
  else if report.type == "authority" && is_falsy report.category then
    Except.error ⟨400, "Category is required for authority reports"⟩
  else if report.type == "community" && is_falsy report.alertLevel then
    Except.error ⟨400, "Alert level is required for community alerts"⟩
  else
    Except.ok (reports_db ++ [dict_of_report report])

/-- One element of the `GET /reports` response: `report['category']` feeds
the required-`str` field `ReportOut.category`, so a `None` category fails
response validation. -/
def report_out_item (index : Nat) (report : StoredReport) :
    Except PyError ReportOut := do
  let category ← req_str "category" report.category
  Except.ok ⟨index + 1, report.issue, category, report.location,
    report.seriousness.getD "Moderate", report.description⟩

/-- The enumerated comprehension of `GET /reports`, starting at `index`. -/
def report_outs (index : Nat) : List StoredReport →
    Except PyError (List ReportOut)
  | [] => Except.ok []
  | report :: rest => do
    let item ← report_out_item index report
    let items ← report_outs (index + 1) rest
    Except.ok (item :: items)

/-- `GET /reports` (`get_all_reports` in src/main.py). -/
def get_all_reports (reports_db : List StoredReport) :
    Except PyError (List ReportOut) :=
  report_outs 0 reports_db

/-- One `ReportHistoryItem` of the user dashboard: `report['category']`
feeds a required-`str` field, `report.get("status", "Unresolved")` defaults
a missing status. -/
def history_item (index : Nat) (report : StoredReport) :
    Except PyError ReportHistoryItem := do
  let category ← req_str "category" report.category
  Except.ok ⟨index + 1, report.issue, category, report.status.getD "Unresolved"⟩

/-- The enumerated history comprehension of the user dashboard. -/
def history_items (index : Nat) : List StoredReport →
    Except PyError (List ReportHistoryItem)
  | [] => Except.ok []
  | report :: rest => do
    let item ← history_item index report
    let items ← history_items (index + 1) rest
    Except.ok (item :: items)

/-- `GET /user-dashboard` (`get_user_dashboard` in src/main.py): filter the
store by exact email match, compute the statistics, then build the history
(which may fail pydantic validation) and the notifications. -/
def get_user_dashboard (reports_db : List StoredReport) (email : String) :
    Except PyError UserDashboardResponse :=
  let user_reports := reports_db.filter (fun report => report.email == email)
  let total_reports := user_reports.length
  let resolved_reports :=
    (user_reports.filter (fun report => report.status == some "Resolved")).length
  let unresolved_reports := total_reports - resolved_reports
  do
    let report_history ← history_items 0 user_reports
    Except.ok
      ⟨⟨total_reports, resolved_reports, unresolved_reports⟩,
       report_history,
       (user_reports.filter
          (fun report => report.status == some "Resolved")).map
         (fun report =>
           "Your report \x27" ++ report.issue ++
             "\x27 has been marked as resolved.")⟩

/-- The global statistics block of the authority dashboard. -/
def global_stats (reports_db : List StoredReport) : GlobalStats :=
  let total_reports := reports_db.length
  let resolved_reports :=
    (reports_db.filter (fun report => report.status == some "Resolved")).length
  ⟨total_reports, resolved_reports, total_reports - resolved_reports,
   (reports_db.filter (fun report =>
      report.seriousness == some "High" ||
        report.seriousness == some "Critical")).length⟩

/-- `category_counts[category] = category_counts.get(category, 0) + 1` on a
Python dictionary kept as an insertion-ordered association list: an existing
key is incremented in place, a new key is appended at the end. -/
def bump_count : List (Option String × Nat) → Option String →
    List (Option String × Nat)
  | [], c => [(c, 1)]
  | (k, n) :: rest, c =>
    if k = c then (k, n + 1) :: rest else (k, n) :: bump_count rest c

/-- The `category_counts` dictionary of the authority dashboard.  Every
stored dictionary has the `category` key, so `report.get("category",
"Other")` returns the stored value (possibly `None`), never the default. -/
def category_counts (reports_db : List StoredReport) :
    List (Option String × Nat) :=
  reports_db.foldl (fun acc report => bump_count acc report.category) []

/-- Emitting `IssueByCategory(category=..., count=...)` over the dictionary
items: a `None` key fails pydantic validation of the required-`str` field. -/
def issues_by_category_items : List (Option String × Nat) →
    Except PyError (List IssueByCategory)
  | [] => Except.ok []
  | (k, n) :: rest => do
    let category ← req_str "category" k
    let items ← issues_by_category_items rest
    Except.ok (⟨category, n⟩ :: items)

/-- The `issuesByCategory` block of the authority dashboard. -/
def issues_by_category (reports_db : List StoredReport) :
    Except PyError (List IssueByCategory) :=
  issues_by_category_items (category_counts reports_db)

/-- The `seriousness_counts` dictionary: created with exactly the four keys
Low, Moderate, High, Critical (in that insertion order), never extended. -/
structure SeriousnessCounts where
  low : Nat
  moderate : Nat
  high : Nat
  critical : Nat
deriving DecidableEq

/-- `seriousness_counts[seriousness] += 1`: incrementing a key that is not
one of the four raises `KeyError`. -/
def bump_seriousness (counts : SeriousnessCounts) (seriousness : String) :
    Except PyError SeriousnessCounts :=
  if seriousness == "Low" then
    Except.ok { counts with low := counts.low + 1 }
  else if seriousness == "Moderate" then
    Except.ok { counts with moderate := counts.moderate + 1 }
  else if seriousness == "High" then
    Except.ok { counts with high := counts.high + 1 }
  else if seriousness == "Critical" then
    Except.ok { counts with critical := counts.critical + 1 }
  else
    Except.error (PyError.keyError seriousness)

/-- The tallying loop over the store, defaulting a missing seriousness to
Moderate before the dictionary lookup. -/
def seriousness_counts : SeriousnessCounts → List StoredReport →
    Except PyError SeriousnessCounts
  | counts, [] => Except.ok counts
  | counts, report :: rest => do
    let counts2 ← bump_seriousness counts (report.seriousness.getD "Moderate")
    seriousness_counts counts2 rest

/-- The `issuesBySeriousness` block: the four buckets in dictionary insertion
order Low, Moderate, High, Critical. -/
def issues_by_seriousness (reports_db : List StoredReport) :
    Except PyError (List IssueBySeriousness) := do
  let c ← seriousness_counts ⟨0, 0, 0, 0⟩ reports_db
  Except.ok [⟨"Low", c.low⟩, ⟨"Moderate", c.moderate⟩, ⟨"High", c.high⟩,
    ⟨"Critical", c.critical⟩]

/-- One element of the authority dashboard's `issueList`.  Python evaluates
the constructor arguments first, so the plain access `report['date']` raises
`KeyError` on a freshly submitted report before pydantic can validate
`category`; when `date` is present, a `None` category fails validation. -/
def issue_item (index : Nat) (report : StoredReport) :
    Except PyError IssueManagementItem := do
  let date ← key_str "date" report.date
  let category ← req_str "category" report.category
  Except.ok ⟨index + 1, report.issue, category, date,
    report.seriousness.getD "Moderate", report.status.getD "Unresolved"⟩

/-- The enumerated `issueList` comprehension, starting at `index`. -/
def issue_items (index : Nat) : List StoredReport →
    Except PyError (List IssueManagementItem)
  | [] => Except.ok []
  | report :: rest => do
    let item ← issue_item index report
    let items ← issue_items (index + 1) rest
    Except.ok (item :: items)

/-- The `issueList` block of the authority dashboard. -/
def issue_list (reports_db : List StoredReport) :
    Except PyError (List IssueManagementItem) :=
  issue_items 0 reports_db

/-- `GET /authority-dashboard` (`get_authority_dashboard` in src/main.py),
building its blocks in the handler's order. -/
def get_authority_dashboard (reports_db : List StoredReport) :
    Except PyError AuthorityDashboardResponse := do
  let by_category ← issues_by_category reports_db
  let by_seriousness ← issues_by_seriousness reports_db
  let management ← issue_list reports_db
  Except.ok ⟨global_stats reports_db, by_category, by_seriousness, management⟩

/-- The seriousness labels of the spec's glossary and data model. -/
def seriousness_values : List String := ["Low", "Moderate", "High", "Critical"]

/-- Specification-side count: the number of reports whose seriousness,
defaulted to Moderate when absent, equals `s`. -/
def ser_count (reports_db : List StoredReport) (s : String) : Nat :=
  (reports_db.filter (fun report => report.seriousness.getD "Moderate" == s)).length

/-- Specification-side count of one category value among the stored ones. -/
def cat_count (cats : List (Option String)) (c : Option String) : Nat :=
  (cats.filter (fun x => x == c)).length

/-- Modelled from the spec: the first-seen order of values in a list, with an
accumulator of values already seen. -/
def first_seen_from {α : Type} [DecidableEq α] (seen : List α) :
    List α → List α
  | [] => []
  | c :: cs =>
    if c ∈ seen then first_seen_from seen cs
    else c :: first_seen_from (c :: seen) cs

/-- Modelled from the spec: the values of a list in first-seen order. -/
def first_seen {α : Type} [DecidableEq α] (l : List α) : List α :=
  first_seen_from [] l

/-- The count recorded for key `c` in the association-list dictionary (the
first entry with that key; 0 when the key is absent). -/
def count_of : List (Option String × Nat) → Option String → Nat
  | [], _ => 0
  | (k, n) :: rest, c => if k = c then n else count_of rest c

/-- A registered user used by concrete instances below. -/
def alice : User := ⟨"Alice", "a@x.com", "p", "user", "1", "L"⟩

/-- An authority report with a well-formed category. -/
def good_authority_report : Report :=
  ⟨"a@x.com", "authority", some "Roads", "Pothole", "d", "L", none, none⟩

/-- An authority report whose category is present but empty. -/
def empty_category_report : Report :=
  ⟨"a@x.com", "authority", some "", "Pothole", "d", "L", none, none⟩

/-- A community report: no category, alert level set. -/
def flood_report : Report :=
  ⟨"a@x.com", "community", none, "Flood", "d", "L", none, some "High"⟩

/-- A community report by a second user. -/
def blackout_report : Report :=
  ⟨"b@x.com", "community", none, "Blackout", "d2", "L2", none, some "Low"⟩

/-- A third community report. -/
def noise_report : Report :=
  ⟨"c@x.com", "community", none, "Noise", "d3", "L3", none, some "High"⟩

/-- A fourth community report. -/
def garbage_report : Report :=
  ⟨"d@x.com", "community", none, "Garbage", "d4", "L4", none, some "Low"⟩

/-- A registration payload whose email is not a syntactically valid
address (it contains no at-sign). -/
def mallory : User := ⟨"Mallory", "not-an-email", "p", "user", "1", "L"⟩

/-- A second registered user. -/
def bob : User := ⟨"Bob", "b@x.com", "q", "user", "2", "M"⟩

/-- A second authority report in the same category as the first. -/
def streetlight_report : Report :=
  ⟨"a@x.com", "authority", some "Roads", "Streetlight", "d5", "L", none, none⟩

/-! ## Theorems -/

/-- Any cons whose head lacks the `date` key makes the issue-list
comprehension raise `KeyError` at once. -/
theorem issue_items_error_of_date_none (index : Nat) (report : StoredReport)
    (rest : List StoredReport) (h : report.date = none) :
    issue_items index (report :: rest) = Except.error (PyError.keyError "date") := by
  simp [issue_items, issue_item, key_str, h, Bind.bind, Except.bind]

/-- Claim C1: in every report store whose reports were all created through
the report-submission endpoint (which stores `report.dict()`, leaving
`seriousness`, `status` and `date` unset) and which contains at least one
report, the authority dashboard's construction of `issueList` fails with an
uncaught `KeyError` when reading the report's `date` field. -/
theorem issue_list_fails_on_submitted_store (reports_db : List StoredReport)
    (hsub : ∀ r ∈ reports_db, ∃ x : Report, r = dict_of_report x)
    (hne : reports_db ≠ []) :
    issue_list reports_db = Except.error (PyError.keyError "date") := by
  cases reports_db with
  | nil => exact absurd rfl hne
  | cons r rest =>
    obtain ⟨x, hx⟩ := hsub r (List.mem_cons_self r rest)
    have hd : r.date = none := by rw [hx]; rfl
    exact issue_items_error_of_date_none 0 r rest hd

/-- Concrete instance of C1 on a one-report store. -/
theorem issue_list_fails_on_submitted_store_witness :
    issue_list [dict_of_report flood_report] =
      Except.error (PyError.keyError "date") :=
  issue_list_fails_on_submitted_store [dict_of_report flood_report]
    (by
      intro r hr
      simp only [List.mem_singleton] at hr
      exact ⟨flood_report, hr⟩)
    (by simp)

/-- Claim C9: a store holding a community report submitted without a
category is reachable (submission succeeds and stores `category = None`),
and on it both `GET /reports` and `GET /user-dashboard` fail pydantic
validation of a required-`str` `category` field instead of returning a
well-typed response. -/
theorem none_category_report_breaks_read_endpoints :
    submit_report [alice] [] flood_report =
      Except.ok [dict_of_report flood_report] ∧
    (dict_of_report flood_report).category = none ∧
    get_all_reports [dict_of_report flood_report] =
      Except.error (PyError.validationError "category") ∧
    get_user_dashboard [dict_of_report flood_report] "a@x.com" =
      Except.error (PyError.validationError "category") :=
  ⟨rfl, rfl, rfl, rfl⟩

/-- Claim C10: registration performs no syntactic validation of the email
field — the pydantic `User` model declares `email: str`, so a payload whose
email is not an email address (here one with no at-sign) is accepted and a
user record is appended. -/
theorem register_user_accepts_invalid_email :
    register_user [] mallory = Except.ok [mallory] ∧
    mallory.email.data.contains (Char.ofNat 64) = false :=
  ⟨rfl, by decide⟩

/-- Counterexample to claim C2 as stated: for an authority report whose
category is present but empty, none of the claim's three failure conditions
holds (the user exists and `category` is not absent), yet the code rejects
the submission with BadRequest instead of appending the report. -/
theorem submit_report_rejects_present_empty_category :
    submit_report [alice] [] empty_category_report =
      Except.error ⟨400, "Category is required for authority reports"⟩ ∧
    empty_category_report.category = some "" ∧
    alice.email = empty_category_report.email :=
  ⟨rfl, rfl, rfl⟩

/-- Counterexample to claim C5 as stated: on a store holding one community
report (stored with `category = None`) the user dashboard for that user's
email raises a pydantic validation error instead of returning the response
the claim describes. -/
theorem user_dashboard_fails_on_none_category :
    get_user_dashboard [dict_of_report blackout_report] "b@x.com" =
      Except.error (PyError.validationError "category") :=
  rfl

/-- Counterexample to claim C7 as stated: on a store holding one community
report (stored with `category = None`) the list-all-reports operation raises
a pydantic validation error instead of returning one summary per report. -/
theorem get_all_reports_fails_on_none_category :
    get_all_reports [dict_of_report noise_report] =
      Except.error (PyError.validationError "category") :=
  rfl

/-- Counterexample to claim C8 as stated: a report stored with `category =
None` is not counted under "Other" — the `category` key is present in the
stored dictionary, so `report.get("category", "Other")` returns `None`, the
tally keys `None`, and emitting the `(category, count)` pairs fails pydantic
validation instead of producing a tally. -/
theorem issues_by_category_fails_on_none_category :
    (dict_of_report garbage_report).category = none ∧
    issues_by_category [dict_of_report garbage_report] =
      Except.error (PyError.validationError "category") :=
  ⟨rfl, rfl⟩

/-- Python truthiness under `not` of an `Optional[str]`, spelled out. -/
theorem is_falsy_iff (o : Option String) :
    is_falsy o = true ↔ o = none ∨ o = some "" := by
  cases o with
  | none => simp [is_falsy]
  | some s => simp [is_falsy]

/-- The duplicate-email scan of the handlers, spelled out. -/
theorem any_email_iff (l : List User) (e : String) :
    (l.any fun u => u.email == e) = true ↔ ∃ u ∈ l, u.email = e := by
  simp [List.any_eq_true]

/-- Claim C3: registration fails (status 400, the spec's Conflict) exactly
when a stored user already has the same email, leaving the user store
unchanged, and otherwise appends exactly one record; in particular a second
registration of the same email fails and the store has grown by exactly one
record in total. -/
theorem register_user_spec (users_db : List User) (user second_user : User) :
    (register_user users_db user =
        Except.error ⟨400, "User with this email already exists"⟩ ↔
      ∃ u ∈ users_db, u.email = user.email) ∧
    ((∀ u ∈ users_db, u.email ≠ user.email) →
      register_user users_db user = Except.ok (users_db ++ [user])) ∧
    (∀ users_db2, register_user users_db user = Except.ok users_db2 →
      second_user.email = user.email →
      register_user users_db2 second_user =
          Except.error ⟨400, "User with this email already exists"⟩ ∧
        users_db2.length = users_db.length + 1) := by
  refine ⟨?_, ?_, ?_⟩
  · cases h : (users_db.any fun u => u.email == user.email) with
    | false =>
      simp only [register_user, h, if_neg Bool.false_ne_true]
      constructor
      · intro hc; exact absurd hc (by simp)
      · intro hex; exact absurd ((any_email_iff users_db user.email).mpr hex) (by simp [h])
    | true =>
      have hcode : register_user users_db user =
          Except.error ⟨400, "User with this email already exists"⟩ := by
        simp [register_user, h]
      rw [hcode]
      exact iff_of_true rfl ((any_email_iff users_db user.email).mp h)
  · intro hall
    have h : (users_db.any fun u => u.email == user.email) = false := by
      cases h : (users_db.any fun u => u.email == user.email) with
      | false => rfl
      | true =>
        obtain ⟨u, hu, he⟩ := (any_email_iff users_db user.email).mp h
        exact absurd he (hall u hu)
    simp only [register_user, h, if_neg Bool.false_ne_true]
  · intro users_db2 hok hemail
    cases h : (users_db.any fun u => u.email == user.email) with
    | true => rw [register_user, if_pos h] at hok; exact absurd hok (by simp)
    | false =>
      rw [register_user, if_neg (by simp [h])] at hok
      have h2 : users_db ++ [user] = users_db2 := by simpa using hok
      subst h2
      constructor
      · have hmem : user ∈ users_db ++ [user] := by simp
        have hany : ((users_db ++ [user]).any
            fun u2 => u2.email == second_user.email) = true :=
          (any_email_iff _ _).mpr ⟨user, hmem, hemail.symm⟩
        rw [register_user, if_pos hany]
      · simp

/-- Concrete instance of C3: registering `bob` twice. -/
theorem register_user_spec_witness :
    register_user [bob] bob =
        Except.error ⟨400, "User with this email already exists"⟩ ∧
      ([bob] : List User).length = ([] : List User).length + 1 :=
  (register_user_spec [] bob bob).2.2 [bob] rfl rfl

/-- Claim C6: login fails with status 401 exactly when no stored user's
email matches or the first matching user's password differs under exact
string equality; on success it returns only the name, email, role and
location of the first matching record, and every error response is the
constant detail message, so the password is never echoed. -/
theorem login_user_spec (users_db : List User) (user : UserLogin) :
    (users_db.find? (fun u => u.email == user.email) = none →
      login_user users_db user =
        Except.error ⟨401, "Invalid email or password"⟩) ∧
    (∀ found_user,
      users_db.find? (fun u => u.email == user.email) = some found_user →
      (found_user.password ≠ user.password →
        login_user users_db user =
          Except.error ⟨401, "Invalid email or password"⟩) ∧
      (found_user.password = user.password →
        login_user users_db user =
          Except.ok ⟨found_user.name, found_user.email, found_user.role,
            found_user.location⟩)) ∧
    (∀ e, login_user users_db user = Except.error e →
      e = ⟨401, "Invalid email or password"⟩) := by
  refine ⟨?_, ?_, ?_⟩
  · intro h
    simp [login_user, h]
  · intro found_user hfu
    constructor
    · intro hne
      have hb : (found_user.password == user.password) = false := by
        simp [hne]
      simp [login_user, hfu, hb]
    · intro heq
      simp [login_user, hfu, heq]
  · intro e he
    cases hf : users_db.find? (fun u => u.email == user.email) with
    | none =>
      simp only [login_user, hf, Except.error.injEq] at he
      exact he.symm
    | some found_user =>
      cases hp : (found_user.password == user.password) with
      | true =>
        simp only [login_user, hf, hp, if_pos rfl] at he
        exact absurd he (by simp)
      | false =>
        simp only [login_user, hf, hp, if_neg Bool.false_ne_true,
          Except.error.injEq] at he
        exact he.symm

/-- Concrete instance of C6: a successful login for `alice`. -/
theorem login_user_spec_witness :
    login_user [alice] ⟨"a@x.com", "p"⟩ =
      Except.ok ⟨"Alice", "a@x.com", "user", "L"⟩ :=
  ((login_user_spec [alice] ⟨"a@x.com", "p"⟩).2.1 alice rfl).2 rfl

/-- The authority-branch guard of report submission, spelled out. -/
theorem authority_guard_iff (report : Report) :
    (report.type == "authority" && is_falsy report.category) = true ↔
      report.type = "authority" ∧
        (report.category = none ∨ report.category = some "") := by
  simp [Bool.and_eq_true, is_falsy_iff]

/-- The community-branch guard of report submission, spelled out. -/
theorem community_guard_iff (report : Report) :
    (report.type == "community" && is_falsy report.alertLevel) = true ↔
      report.type = "community" ∧
        (report.alertLevel = none ∨ report.alertLevel = some "") := by
  simp [Bool.and_eq_true, is_falsy_iff]

/-- Claim C2 (amended): report submission fails with NotFound exactly when no
stored user has the given email; otherwise it fails with BadRequest exactly
when type is "authority" and category is absent OR PRESENT BUT EMPTY (Python
truthiness); otherwise it fails with BadRequest exactly when type is
"community" and alertLevel is absent or present but empty; on every failure
the report store is unchanged, and otherwise exactly one record is appended. -/
theorem submit_report_spec (users_db : List User)
    (reports_db : List StoredReport) (report : Report) :
    (submit_report users_db reports_db report =
        Except.error ⟨404, "User not found"⟩ ↔
      ∀ u ∈ users_db, u.email ≠ report.email) ∧
    (submit_report users_db reports_db report =
        Except.error ⟨400, "Category is required for authority reports"⟩ ↔
      (∃ u ∈ users_db, u.email = report.email) ∧ report.type = "authority" ∧
        (report.category = none ∨ report.category = some "")) ∧
    (submit_report users_db reports_db report =
        Except.error ⟨400, "Alert level is required for community alerts"⟩ ↔
      (∃ u ∈ users_db, u.email = report.email) ∧ report.type = "community" ∧
        (report.alertLevel = none ∨ report.alertLevel = some "")) ∧
    ((∃ u ∈ users_db, u.email = report.email) →
      ¬(report.type = "authority" ∧
          (report.category = none ∨ report.category = some "")) →
      ¬(report.type = "community" ∧
          (report.alertLevel = none ∨ report.alertLevel = some "")) →
      submit_report users_db reports_db report =
        Except.ok (reports_db ++ [dict_of_report report])) := by
  cases h1 : (users_db.any fun user => user.email == report.email) with
  | false =>
    have hnu : ¬∃ u ∈ users_db, u.email = report.email := fun hex => by
      simp [(any_email_iff users_db report.email).mpr hex] at h1
    have hcode : submit_report users_db reports_db report =
        Except.error ⟨404, "User not found"⟩ := by
      simp [submit_report, h1]
    refine ⟨?_, ?_, ?_, ?_⟩
    · rw [hcode]
      exact iff_of_true rfl (fun u hu he => hnu ⟨u, hu, he⟩)
    · rw [hcode]
      exact iff_of_false (by simp) (fun hp => hnu hp.1)
    · rw [hcode]
      exact iff_of_false (by simp) (fun hp => hnu hp.1)
    · intro hex
      exact absurd hex hnu
  | true =>
    have hu : ∃ u ∈ users_db, u.email = report.email :=
      (any_email_iff users_db report.email).mp h1
    have hnotall : ¬∀ u ∈ users_db, u.email ≠ report.email := by
      obtain ⟨u, hu2, he⟩ := hu
      exact fun hall => hall u hu2 he
    cases h2 : (report.type == "authority" && is_falsy report.category) with
    | true =>
      have ha := (authority_guard_iff report).mp h2
      have hcode : submit_report users_db reports_db report =
          Except.error ⟨400, "Category is required for authority reports"⟩ := by
        simp [submit_report, h1, h2]
      refine ⟨?_, ?_, ?_, ?_⟩
      · rw [hcode]
        exact iff_of_false (by simp) hnotall
      · rw [hcode]
        exact iff_of_true rfl ⟨hu, ha.1, ha.2⟩
      · rw [hcode]
        refine iff_of_false (by simp) ?_
        intro hp
        exact absurd (ha.1.symm.trans hp.2.1) (by decide)
      · intro _ hna _
        exact absurd ha hna
    | false =>
      have hna : ¬(report.type = "authority" ∧
          (report.category = none ∨ report.category = some "")) := fun hp => by
        simp [(authority_guard_iff report).mpr hp] at h2
      cases h3 : (report.type == "community" && is_falsy report.alertLevel) with
      | true =>
        have hc := (community_guard_iff report).mp h3
        have hcode : submit_report users_db reports_db report =
            Except.error ⟨400, "Alert level is required for community alerts"⟩ := by
          simp [submit_report, h1, h2, h3]
        refine ⟨?_, ?_, ?_, ?_⟩
        · rw [hcode]
          exact iff_of_false (by simp) hnotall
        · rw [hcode]
          exact iff_of_false (by simp) (fun hp => hna ⟨hp.2.1, hp.2.2⟩)
        · rw [hcode]
          exact iff_of_true rfl ⟨hu, hc.1, hc.2⟩
        · intro _ _ hnc
          exact absurd hc hnc
      | false =>
        have hnc : ¬(report.type = "community" ∧
            (report.alertLevel = none ∨ report.alertLevel = some "")) :=
          fun hp => by
            simp [(community_guard_iff report).mpr hp] at h3
        have hcode : submit_report users_db reports_db report =
            Except.ok (reports_db ++ [dict_of_report report]) := by
          simp [submit_report, h1, h2, h3]
        refine ⟨?_, ?_, ?_, ?_⟩
        · rw [hcode]
          exact iff_of_false (by simp) hnotall
        · rw [hcode]
          exact iff_of_false (by simp) (fun hp => hna ⟨hp.2.1, hp.2.2⟩)
        · rw [hcode]
          exact iff_of_false (by simp) (fun hp => hnc ⟨hp.2.1, hp.2.2⟩)
        · intro _ _ _
          exact hcode

/-- Concrete instance of C2: a well-formed authority submission appends one
record. -/
theorem submit_report_spec_witness :
    submit_report [alice] [] good_authority_report =
      Except.ok [dict_of_report good_authority_report] :=
  (submit_report_spec [alice] [] good_authority_report).2.2.2
    ⟨alice, by simp, rfl⟩ (by decide) (by decide)

/-- Binding a successful `Except` computation just applies the
continuation. -/
theorem except_bind_ok {ε α β : Type} (a : α) (f : α → Except ε β) :
    (Except.ok a >>= f : Except ε β) = f a := rfl

/-- One comprehension step of `seriousness_counts`. -/
theorem seriousness_counts_cons (counts : SeriousnessCounts)
    (r : StoredReport) (rest : List StoredReport) :
    seriousness_counts counts (r :: rest) =
      bump_seriousness counts (r.seriousness.getD "Moderate") >>=
        fun counts2 => seriousness_counts counts2 rest := rfl

/-- Incrementing the Low bucket. -/
theorem bump_seriousness_low (counts : SeriousnessCounts) :
    bump_seriousness counts "Low" =
      Except.ok ⟨counts.low + 1, counts.moderate, counts.high,
        counts.critical⟩ := rfl

/-- Incrementing the Moderate bucket. -/
theorem bump_seriousness_moderate (counts : SeriousnessCounts) :
    bump_seriousness counts "Moderate" =
      Except.ok ⟨counts.low, counts.moderate + 1, counts.high,
        counts.critical⟩ := rfl

/-- Incrementing the High bucket. -/
theorem bump_seriousness_high (counts : SeriousnessCounts) :
    bump_seriousness counts "High" =
      Except.ok ⟨counts.low, counts.moderate, counts.high + 1,
        counts.critical⟩ := rfl

/-- Incrementing the Critical bucket. -/
theorem bump_seriousness_critical (counts : SeriousnessCounts) :
    bump_seriousness counts "Critical" =
      Except.ok ⟨counts.low, counts.moderate, counts.high,
        counts.critical + 1⟩ := rfl

/-- Unfolding the per-report seriousness count over a cons. -/
theorem ser_count_cons (r : StoredReport) (rest : List StoredReport)
    (s : String) :
    ser_count (r :: rest) s =
      ser_count rest s +
        if r.seriousness.getD "Moderate" = s then 1 else 0 := by
  by_cases h : r.seriousness.getD "Moderate" = s
  · simp [ser_count, List.filter_cons, h]
  · have hb : (r.seriousness.getD "Moderate" == s) = false :=
      beq_eq_false_iff_ne.mpr h
    simp [ser_count, List.filter_cons, hb, h]

/-- The tallying loop succeeds on any store whose (defaulted) seriousness
labels are among the four bucket keys, adding the per-label counts to the
incoming dictionary. -/
theorem seriousness_counts_ok (reports_db : List StoredReport) :
    ∀ counts : SeriousnessCounts,
    (∀ r ∈ reports_db, r.seriousness.getD "Moderate" ∈ seriousness_values) →
    seriousness_counts counts reports_db =
      Except.ok ⟨counts.low + ser_count reports_db "Low",
        counts.moderate + ser_count reports_db "Moderate",
        counts.high + ser_count reports_db "High",
        counts.critical + ser_count reports_db "Critical"⟩ := by
  induction reports_db with
  | nil =>
    intro counts _
    simp [seriousness_counts, ser_count]
  | cons r rest ih =>
    intro counts h
    have hr := h r (List.mem_cons_self r rest)
    have hrest : ∀ x ∈ rest,
        x.seriousness.getD "Moderate" ∈ seriousness_values :=
      fun x hx => h x (List.mem_cons_of_mem r hx)
    simp only [seriousness_values, List.mem_cons, List.not_mem_nil,
      or_false] at hr
    rcases hr with h0 | h0 | h0 | h0
    · rw [seriousness_counts_cons, h0, bump_seriousness_low, except_bind_ok,
        ih _ hrest]
      simp only [Except.ok.injEq, SeriousnessCounts.mk.injEq,
        ser_count_cons, h0]
      refine ⟨?_, ?_, ?_, ?_⟩ <;> (simp; try omega)
    · rw [seriousness_counts_cons, h0, bump_seriousness_moderate,
        except_bind_ok, ih _ hrest]
      simp only [Except.ok.injEq, SeriousnessCounts.mk.injEq,
        ser_count_cons, h0]
      refine ⟨?_, ?_, ?_, ?_⟩ <;> (simp; try omega)
    · rw [seriousness_counts_cons, h0, bump_seriousness_high,
        except_bind_ok, ih _ hrest]
      simp only [Except.ok.injEq, SeriousnessCounts.mk.injEq,
        ser_count_cons, h0]
      refine ⟨?_, ?_, ?_, ?_⟩ <;> (simp; try omega)
    · rw [seriousness_counts_cons, h0, bump_seriousness_critical,
        except_bind_ok, ih _ hrest]
      simp only [Except.ok.injEq, SeriousnessCounts.mk.injEq,
        ser_count_cons, h0]
      refine ⟨?_, ?_, ?_, ?_⟩ <;> (simp; try omega)

/-- The four per-label counts partition the store when every (defaulted)
label is among the four bucket keys. -/
theorem ser_count_sum (reports_db : List StoredReport)
    (h : ∀ r ∈ reports_db, r.seriousness.getD "Moderate" ∈ seriousness_values) :
    ser_count reports_db "Low" + ser_count reports_db "Moderate" +
        ser_count reports_db "High" + ser_count reports_db "Critical" =
      reports_db.length := by
  induction reports_db with
  | nil => simp [ser_count]
  | cons r rest ih =>
    have hr := h r (List.mem_cons_self r rest)
    have hrest : ∀ x ∈ rest,
        x.seriousness.getD "Moderate" ∈ seriousness_values :=
      fun x hx => h x (List.mem_cons_of_mem r hx)
    have hsum := ih hrest
    simp only [seriousness_values, List.mem_cons, List.not_mem_nil,
      or_false] at hr
    rcases hr with h0 | h0 | h0 | h0 <;>
      simp [ser_count_cons, h0, List.length_cons] <;> omega

/-- Claim C4: for every report store whose seriousness labels (defaulted to
Moderate when absent) are among the glossary's four values — which holds in
particular for every store the API can produce, where seriousness is never
set — `issuesBySeriousness` is exactly the four buckets Low, Moderate, High,
Critical in that fixed order, each counting the reports carrying that
(defaulted) label, and the four counts sum to `totalReports`. -/
theorem issues_by_seriousness_buckets (reports_db : List StoredReport)
    (h : ∀ r ∈ reports_db, r.seriousness.getD "Moderate" ∈ seriousness_values) :
    issues_by_seriousness reports_db =
      Except.ok [⟨"Low", ser_count reports_db "Low"⟩,
        ⟨"Moderate", ser_count reports_db "Moderate"⟩,
        ⟨"High", ser_count reports_db "High"⟩,
        ⟨"Critical", ser_count reports_db "Critical"⟩] ∧
    ser_count reports_db "Low" + ser_count reports_db "Moderate" +
        ser_count reports_db "High" + ser_count reports_db "Critical" =
      reports_db.length := by
  constructor
  · have hrun := seriousness_counts_ok reports_db ⟨0, 0, 0, 0⟩ h
    simp only [issues_by_seriousness, hrun, except_bind_ok]
    simp
  · exact ser_count_sum reports_db h

/-- Concrete instance of C4 on a one-report store with no seriousness. -/
theorem issues_by_seriousness_buckets_witness :
    issues_by_seriousness [dict_of_report good_authority_report] =
      Except.ok [⟨"Low", ser_count [dict_of_report good_authority_report] "Low"⟩,
        ⟨"Moderate", ser_count [dict_of_report good_authority_report] "Moderate"⟩,
        ⟨"High", ser_count [dict_of_report good_authority_report] "High"⟩,
        ⟨"Critical", ser_count [dict_of_report good_authority_report] "Critical"⟩] ∧
    ser_count [dict_of_report good_authority_report] "Low" +
        ser_count [dict_of_report good_authority_report] "Moderate" +
        ser_count [dict_of_report good_authority_report] "High" +
        ser_count [dict_of_report good_authority_report] "Critical" =
      ([dict_of_report good_authority_report] : List StoredReport).length :=
  issues_by_seriousness_buckets [dict_of_report good_authority_report]
    (by decide)

/-- The history comprehension succeeds when every filtered report has a
category, producing one item per report with positional ids. -/
theorem history_items_ok (l : List StoredReport) :
    ∀ index : Nat, (∀ r ∈ l, r.category ≠ none) →
    ∃ items, history_items index l = Except.ok items ∧
      items.length = l.length ∧
      ∀ i (hi : i < items.length), (items.get ⟨i, hi⟩).id = index + i + 1 := by
  induction l with
  | nil =>
    intro index _
    exact ⟨[], rfl, rfl, fun i hi => absurd hi (by simp)⟩
  | cons r rest ih =>
    intro index h
    rcases Option.ne_none_iff_exists'.mp (h r (List.mem_cons_self r rest))
      with ⟨c, hc⟩
    obtain ⟨items, hitems, hlen, hid⟩ :=
      ih (index + 1) (fun x hx => h x (List.mem_cons_of_mem r hx))
    refine ⟨⟨index + 1, r.issue, c, r.status.getD "Unresolved"⟩ :: items,
      ?_, by simp [hlen], ?_⟩
    · simp [history_items, history_item, req_str, hc, hitems, except_bind_ok]
    · intro i hi
      cases i with
      | zero => rfl
      | succ j =>
        have hj : j < items.length := Nat.lt_of_succ_lt_succ hi
        have h2 := hid j hj
        show (items.get ⟨j, hj⟩).id = index + (j + 1) + 1
        omega

/-- Claim C5 (amended): for every report store and query email such that
every report matching the email has its category present, the user dashboard
computes its response only over the matching reports: totalReports counts
them, resolvedReports counts the matching reports with status "Resolved",
unresolvedReports is their difference, and reportHistory has one item per
matching report with ids 1..totalReports assigned by position in the
filtered subsequence.  (When a matching report has `category = None` the
dashboard instead fails pydantic validation, see the counterexample.) -/
theorem user_dashboard_spec (reports_db : List StoredReport) (email : String)
    (hcat : ∀ r ∈ reports_db, r.email = email → r.category ≠ none) :
    ∃ resp, get_user_dashboard reports_db email = Except.ok resp ∧
      resp.userStats.totalReports =
        (reports_db.filter (fun r => r.email == email)).length ∧
      resp.userStats.resolvedReports =
        ((reports_db.filter (fun r => r.email == email)).filter
          (fun r => r.status == some "Resolved")).length ∧
      resp.userStats.unresolvedReports =
        resp.userStats.totalReports - resp.userStats.resolvedReports ∧
      resp.reportHistory.length = resp.userStats.totalReports ∧
      ∀ i (hi : i < resp.reportHistory.length),
        (resp.reportHistory.get ⟨i, hi⟩).id = i + 1 := by
  have hfil : ∀ r ∈ reports_db.filter (fun r => r.email == email),
      r.category ≠ none := by
    intro r hr
    have hmem := List.mem_of_mem_filter hr
    have hpred := List.of_mem_filter hr
    exact hcat r hmem (by simpa using hpred)
  obtain ⟨items, hitems, hlen, hid⟩ :=
    history_items_ok (reports_db.filter (fun r => r.email == email)) 0 hfil
  refine ⟨⟨⟨(reports_db.filter (fun r => r.email == email)).length,
      ((reports_db.filter (fun r => r.email == email)).filter
        (fun r => r.status == some "Resolved")).length,
      (reports_db.filter (fun r => r.email == email)).length -
        ((reports_db.filter (fun r => r.email == email)).filter
          (fun r => r.status == some "Resolved")).length⟩,
    items,
    ((reports_db.filter (fun r => r.email == email)).filter
        (fun r => r.status == some "Resolved")).map
      (fun report =>
        "Your report \x27" ++ report.issue ++
          "\x27 has been marked as resolved.")⟩,
    ?_, rfl, rfl, rfl, hlen, ?_⟩
  · simp only [get_user_dashboard, hitems, except_bind_ok]
  · intro i hi
    have h2 := hid i hi
    show (items.get ⟨i, hi⟩).id = i + 1
    omega

/-- Concrete instance of C5: a store with one matching authority report and
one non-matching community report. -/
theorem user_dashboard_spec_witness :
    ∃ resp, get_user_dashboard
        [dict_of_report good_authority_report, dict_of_report blackout_report]
        "a@x.com" = Except.ok resp ∧
      resp.userStats.totalReports =
        (([dict_of_report good_authority_report,
            dict_of_report blackout_report] : List StoredReport).filter
          (fun r => r.email == "a@x.com")).length ∧
      resp.userStats.resolvedReports =
        ((([dict_of_report good_authority_report,
            dict_of_report blackout_report] : List StoredReport).filter
          (fun r => r.email == "a@x.com")).filter
          (fun r => r.status == some "Resolved")).length ∧
      resp.userStats.unresolvedReports =
        resp.userStats.totalReports - resp.userStats.resolvedReports ∧
      resp.reportHistory.length = resp.userStats.totalReports ∧
      ∀ i (hi : i < resp.reportHistory.length),
        (resp.reportHistory.get ⟨i, hi⟩).id = i + 1 :=
  user_dashboard_spec
    [dict_of_report good_authority_report, dict_of_report blackout_report]
    "a@x.com" (by decide)

/-- The `GET /reports` comprehension succeeds when every report has a
category, producing one summary per report with positional ids, title taken
from `issue`, and seriousness defaulted to Moderate. -/
theorem report_outs_ok (l : List StoredReport) :
    ∀ index : Nat, (∀ r ∈ l, r.category ≠ none) →
    ∃ outs, report_outs index l = Except.ok outs ∧
      outs.length = l.length ∧
      ∀ i (hi : i < outs.length) (hl : i < l.length),
        (outs.get ⟨i, hi⟩).id = index + i + 1 ∧
        (outs.get ⟨i, hi⟩).title = (l.get ⟨i, hl⟩).issue ∧
        (outs.get ⟨i, hi⟩).seriousness =
          (l.get ⟨i, hl⟩).seriousness.getD "Moderate" ∧
        (outs.get ⟨i, hi⟩).location = (l.get ⟨i, hl⟩).location ∧
        (outs.get ⟨i, hi⟩).description = (l.get ⟨i, hl⟩).description := by
  induction l with
  | nil =>
    intro index _
    exact ⟨[], rfl, rfl, fun i hi hl => absurd hl (by simp)⟩
  | cons r rest ih =>
    intro index h
    rcases Option.ne_none_iff_exists'.mp (h r (List.mem_cons_self r rest))
      with ⟨c, hc⟩
    obtain ⟨outs, houts, hlen, hcomp⟩ :=
      ih (index + 1) (fun x hx => h x (List.mem_cons_of_mem r hx))
    refine ⟨⟨index + 1, r.issue, c, r.location,
      r.seriousness.getD "Moderate", r.description⟩ :: outs,
      ?_, by simp [hlen], ?_⟩
    · simp [report_outs, report_out_item, req_str, hc, houts, except_bind_ok]
    · intro i hi hl
      cases i with
      | zero => exact ⟨rfl, rfl, rfl, rfl, rfl⟩
      | succ j =>
        have hi2 : j < outs.length := Nat.lt_of_succ_lt_succ hi
        have hl2 : j < rest.length := Nat.lt_of_succ_lt_succ hl
        obtain ⟨g1, g2, g3, g4, g5⟩ := hcomp j hi2 hl2
        refine ⟨?_, g2, g3, g4, g5⟩
        show (outs.get ⟨j, hi2⟩).id = index + (j + 1) + 1
        omega

/-- Claim C7 (amended): for every report store in which every report has its
category present, list-all-reports returns one summary per stored report in
insertion order, with id the 1-based position, title the report's issue and
seriousness the stored value or "Moderate" when absent.  (When any report has
`category = None` the operation instead fails pydantic validation, see the
counterexample.) -/
theorem get_all_reports_spec (reports_db : List StoredReport)
    (hcat : ∀ r ∈ reports_db, r.category ≠ none) :
    ∃ outs, get_all_reports reports_db = Except.ok outs ∧
      outs.length = reports_db.length ∧
      ∀ i (hi : i < outs.length) (hl : i < reports_db.length),
        (outs.get ⟨i, hi⟩).id = i + 1 ∧
        (outs.get ⟨i, hi⟩).title = (reports_db.get ⟨i, hl⟩).issue ∧
        (outs.get ⟨i, hi⟩).seriousness =
          (reports_db.get ⟨i, hl⟩).seriousness.getD "Moderate" := by
  obtain ⟨outs, houts, hlen, hcomp⟩ := report_outs_ok reports_db 0 hcat
  refine ⟨outs, houts, hlen, ?_⟩
  intro i hi hl
  obtain ⟨g1, g2, g3, _, _⟩ := hcomp i hi hl
  refine ⟨?_, g2, g3⟩
  omega

/-- Concrete instance of C7 on a one-report store. -/
theorem get_all_reports_spec_witness :
    ∃ outs, get_all_reports [dict_of_report good_authority_report] =
        Except.ok outs ∧
      outs.length =
        ([dict_of_report good_authority_report] : List StoredReport).length ∧
      ∀ i (hi : i < outs.length)
        (hl : i < ([dict_of_report good_authority_report] :
          List StoredReport).length),
        (outs.get ⟨i, hi⟩).id = i + 1 ∧
        (outs.get ⟨i, hi⟩).title =
          (([dict_of_report good_authority_report] :
            List StoredReport).get ⟨i, hl⟩).issue ∧
        (outs.get ⟨i, hi⟩).seriousness =
          (([dict_of_report good_authority_report] :
            List StoredReport).get ⟨i, hl⟩).seriousness.getD "Moderate" :=
  get_all_reports_spec [dict_of_report good_authority_report] (by decide)

/-- Bumping a key leaves the key sequence unchanged when the key is already
present and appends it at the end otherwise, exactly like a Python dict. -/
theorem bump_count_keys (acc : List (Option String × Nat)) (c : Option String) :
    (bump_count acc c).map Prod.fst =
      if c ∈ acc.map Prod.fst then acc.map Prod.fst
      else acc.map Prod.fst ++ [c] := by
  induction acc with
  | nil => simp [bump_count]
  | cons p rest ih =>
    obtain ⟨k, n⟩ := p
    by_cases h : k = c
    · simp [bump_count, h]
    · by_cases hmem : c ∈ List.map Prod.fst rest
      · simp [bump_count, h, ih, hmem, List.mem_cons, Ne.symm h]
      · simp [bump_count, h, ih, hmem, List.mem_cons, Ne.symm h]

/-- Bumping a key increases the total of the recorded counts by one. -/
theorem bump_count_sum (acc : List (Option String × Nat)) (c : Option String) :
    ((bump_count acc c).map Prod.snd).sum = ((acc.map Prod.snd).sum) + 1 := by
  induction acc with
  | nil => simp [bump_count]
  | cons p rest ih =>
    obtain ⟨k, n⟩ := p
    by_cases h : k = c
    · simp [bump_count, h]
      omega
    · simp [bump_count, h, ih]
      omega

/-- Bumping key `d` adds one to the recorded count of `d` and leaves every
other key's count unchanged. -/
theorem count_of_bump (acc : List (Option String × Nat))
    (c d : Option String) :
    count_of (bump_count acc d) c =
      count_of acc c + if c = d then 1 else 0 := by
  induction acc with
  | nil =>
    by_cases h : c = d
    · simp [bump_count, count_of, h]
    · have h2 : ¬d = c := fun e => h e.symm
      simp [bump_count, count_of, h, h2]
  | cons p rest ih =>
    obtain ⟨k, n⟩ := p
    by_cases hk : k = d
    · by_cases hc : k = c
      · have hcd : c = d := hc.symm.trans hk
        rw [bump_count, if_pos hk]
        simp only [count_of]
        rw [if_pos hc, if_pos hc, if_pos hcd]
      · have hcd : ¬c = d := fun e => hc (hk.trans e.symm)
        rw [bump_count, if_pos hk]
        simp only [count_of]
        rw [if_neg hc, if_neg hc, if_neg hcd]
        omega
    · by_cases hc : k = c
      · have hcd : ¬c = d := fun e => hk (hc.trans e)
        rw [bump_count, if_neg hk]
        simp only [count_of]
        rw [if_pos hc, if_pos hc, if_neg hcd]
        omega
      · rw [bump_count, if_neg hk]
        simp only [count_of]
        rw [if_neg hc, if_neg hc, ih]

/-- The first-seen traversal only depends on the membership of the seen
accumulator. -/
theorem first_seen_from_congr {α : Type} [DecidableEq α] (s1 s2 : List α)
    (l : List α) (h : ∀ x, x ∈ s1 ↔ x ∈ s2) :
    first_seen_from s1 l = first_seen_from s2 l := by
  induction l generalizing s1 s2 with
  | nil => rfl
  | cons c cs ih =>
    by_cases hc : c ∈ s1
    · rw [first_seen_from, if_pos hc, first_seen_from, if_pos ((h c).mp hc)]
      exact ih s1 s2 h
    · have hc2 : c ∉ s2 := fun hx => hc ((h c).mpr hx)
      rw [first_seen_from, if_neg hc, first_seen_from, if_neg hc2]
      exact congrArg (List.cons c)
        (ih (c :: s1) (c :: s2) (fun x => by simp [List.mem_cons, h x]))

/-- A value delivered by the first-seen traversal was not already seen. -/
theorem not_mem_seen_of_mem_first_seen_from {α : Type} [DecidableEq α]
    (s l : List α) (x : α) (hx : x ∈ first_seen_from s l) : x ∉ s := by
  induction l generalizing s with
  | nil => simp [first_seen_from] at hx
  | cons c cs ih =>
    rw [first_seen_from] at hx
    by_cases h : c ∈ s
    · rw [if_pos h] at hx
      exact ih s hx
    · rw [if_neg h] at hx
      rcases List.mem_cons.mp hx with rfl | hx2
      · exact h
      · have h2 := ih (c :: s) hx2
        exact fun hxs => h2 (List.mem_cons_of_mem c hxs)

/-- A value delivered by the first-seen traversal occurs in the list. -/
theorem mem_of_mem_first_seen_from {α : Type} [DecidableEq α]
    (s l : List α) (x : α) (hx : x ∈ first_seen_from s l) : x ∈ l := by
  induction l generalizing s with
  | nil => simp [first_seen_from] at hx
  | cons c cs ih =>
    rw [first_seen_from] at hx
    by_cases h : c ∈ s
    · rw [if_pos h] at hx
      exact List.mem_cons_of_mem c (ih s hx)
    · rw [if_neg h] at hx
      rcases List.mem_cons.mp hx with rfl | hx2
      · exact List.mem_cons_self _ _
      · exact List.mem_cons_of_mem c (ih (c :: s) hx2)

/-- The first-seen traversal delivers no duplicates. -/
theorem first_seen_from_nodup {α : Type} [DecidableEq α] (s l : List α) :
    (first_seen_from s l).Nodup := by
  induction l generalizing s with
  | nil => simp [first_seen_from]
  | cons c cs ih =>
    rw [first_seen_from]
    by_cases h : c ∈ s
    · rw [if_pos h]
      exact ih s
    · rw [if_neg h]
      refine List.nodup_cons.mpr ⟨?_, ih (c :: s)⟩
      intro hc
      exact (not_mem_seen_of_mem_first_seen_from (c :: s) cs c hc)
        (List.mem_cons_self c s)

/-- The key sequence of the dictionary built by the tallying fold is the
first-seen order of the processed keys, after the incoming keys. -/
theorem foldl_bump_keys (cats : List (Option String)) :
    ∀ acc : List (Option String × Nat),
    (cats.foldl bump_count acc).map Prod.fst =
      acc.map Prod.fst ++ first_seen_from (acc.map Prod.fst) cats := by
  induction cats with
  | nil =>
    intro acc
    simp [first_seen_from]
  | cons c cs ih =>
    intro acc
    rw [List.foldl_cons, ih (bump_count acc c), bump_count_keys]
    by_cases h : c ∈ acc.map Prod.fst
    · rw [if_pos h, first_seen_from, if_pos h]
    · rw [if_neg h, first_seen_from, if_neg h,
        first_seen_from_congr (acc.map Prod.fst ++ [c]) (c :: acc.map Prod.fst)
          cs (fun x => by rw [List.mem_append, List.mem_singleton,
            List.mem_cons, or_comm]),
        List.append_assoc]
      rfl

/-- The recorded counts of the dictionary built by the tallying fold sum to
the number of processed keys, plus the incoming total. -/
theorem foldl_bump_sum (cats : List (Option String)) :
    ∀ acc : List (Option String × Nat),
    ((cats.foldl bump_count acc).map Prod.snd).sum =
      (acc.map Prod.snd).sum + cats.length := by
  induction cats with
  | nil => intro acc; simp
  | cons c cs ih =>
    intro acc
    rw [List.foldl_cons, ih (bump_count acc c), bump_count_sum]
    simp
    omega

/-- The tallying fold records, for each key, its number of occurrences among
the processed keys, plus its incoming count. -/
theorem foldl_bump_count_of (cats : List (Option String)) :
    ∀ (acc : List (Option String × Nat)) (c : Option String),
    count_of (cats.foldl bump_count acc) c = count_of acc c + cat_count cats c := by
  induction cats with
  | nil =>
    intro acc c
    simp [cat_count]
  | cons d cs ih =>
    intro acc c
    rw [List.foldl_cons, ih (bump_count acc d) c, count_of_bump]
    have hstep : cat_count (d :: cs) c =
        cat_count cs c + if c = d then 1 else 0 := by
      by_cases h : c = d
      · simp [cat_count, List.filter_cons, h]
      · have hb : (d == c) = false :=
          beq_eq_false_iff_ne.mpr (fun e => h e.symm)
        simp [cat_count, List.filter_cons, hb, h]
    omega

/-- In a dictionary with no duplicate keys, the recorded count of a present
entry's key is that entry's count. -/
theorem count_of_eq_of_mem (l : List (Option String × Nat))
    (k : Option String) (n : Nat) (hnd : (l.map Prod.fst).Nodup)
    (hmem : (k, n) ∈ l) : count_of l k = n := by
  induction l with
  | nil => simp at hmem
  | cons p rest ih =>
    obtain ⟨k2, n2⟩ := p
    rcases List.mem_cons.mp hmem with heq | hmem2
    · cases heq
      simp [count_of]
    · have hk : k2 ≠ k := by
        intro he
        subst he
        have hin : k2 ∈ rest.map Prod.fst :=
          List.mem_map_of_mem Prod.fst hmem2
        exact (List.nodup_cons.mp hnd).1 hin
      rw [count_of, if_neg hk]
      exact ih (List.nodup_cons.mp hnd).2 hmem2

/-- Emitting the `(category, count)` pairs succeeds when no key is `None`,
unwrapping each key. -/
theorem issues_by_category_items_ok (l : List (Option String × Nat))
    (h : ∀ p ∈ l, p.1 ≠ none) :
    issues_by_category_items l =
      Except.ok (l.map (fun p => ⟨p.1.getD "", p.2⟩)) := by
  induction l with
  | nil => rfl
  | cons p rest ih =>
    obtain ⟨k, n⟩ := p
    rcases Option.ne_none_iff_exists'.mp (h (k, n) (List.mem_cons_self _ _))
      with ⟨c, hc⟩
    subst hc
    rw [issues_by_category_items,
      ih (fun q hq => h q (List.mem_cons_of_mem _ hq))]
    rfl

/-- Claim C8 (amended): for every report store in which every report has its
category present, `issuesByCategory` is the tally of `report.category`
occurrences emitted as `(category, count)` pairs whose order is the
first-seen order of categories over the store, with no category repeated,
every report counted in exactly one pair, and the counts summing to
`totalReports`.  (A report stored with `category = None` is NOT counted
under "Other" — the key is present in the stored dictionary, so the default
never applies; instead it is tallied under `None` and emitting the pairs
fails pydantic validation, see the counterexample.) -/
theorem issues_by_category_spec (reports_db : List StoredReport)
    (hcat : ∀ r ∈ reports_db, r.category ≠ none) :
    ∃ items, issues_by_category reports_db = Except.ok items ∧
      items.map (fun i => (some i.category : Option String)) =
        first_seen (reports_db.map (fun r => r.category)) ∧
      (items.map (fun i => i.category)).Nodup ∧
      (∀ i ∈ items, i.count =
        cat_count (reports_db.map (fun r => r.category)) (some i.category)) ∧
      (items.map (fun i => i.count)).sum = reports_db.length := by
  have hfold : category_counts reports_db =
      (reports_db.map (fun r => r.category)).foldl bump_count [] := by
    rw [category_counts, List.foldl_map]
  have hkeys : (category_counts reports_db).map Prod.fst =
      first_seen (reports_db.map (fun r => r.category)) := by
    rw [hfold, foldl_bump_keys, first_seen]
    rfl
  have hsome : ∀ p ∈ category_counts reports_db, p.1 ≠ none := by
    intro p hp
    have hk : p.1 ∈ (category_counts reports_db).map Prod.fst :=
      List.mem_map_of_mem Prod.fst hp
    rw [hkeys] at hk
    have hc : p.1 ∈ reports_db.map (fun r => r.category) :=
      mem_of_mem_first_seen_from _ _ _ hk
    rcases List.mem_map.mp hc with ⟨r, hr, hrc⟩
    rw [← hrc]
    exact hcat r hr
  have hemit : issues_by_category reports_db =
      Except.ok ((category_counts reports_db).map
        (fun p => ⟨p.1.getD "", p.2⟩)) := by
    rw [issues_by_category, issues_by_category_items_ok _ hsome]
  have hkey_eq : ∀ p ∈ category_counts reports_db,
      (some (p.1.getD "") : Option String) = p.1 := by
    intro p hp
    rcases Option.ne_none_iff_exists'.mp (hsome p hp) with ⟨c, hc⟩
    rw [hc]
    rfl
  have hmap1 : ((category_counts reports_db).map
        (fun p => ⟨p.1.getD "", p.2⟩) :
      List IssueByCategory).map (fun i => (some i.category : Option String)) =
      (category_counts reports_db).map Prod.fst := by
    rw [List.map_map]
    exact List.map_congr_left hkey_eq
  have hnodup : (((category_counts reports_db).map
        (fun p => ⟨p.1.getD "", p.2⟩) :
      List IssueByCategory).map (fun i => i.category)).Nodup := by
    have h1 : (((category_counts reports_db).map
          (fun p => ⟨p.1.getD "", p.2⟩) :
        List IssueByCategory).map
          (fun i => (some i.category : Option String))).Nodup := by
      rw [hmap1, hkeys, first_seen]
      exact first_seen_from_nodup [] _
    have h2 : (((category_counts reports_db).map
          (fun p => ⟨p.1.getD "", p.2⟩) :
        List IssueByCategory).map (fun i => (some i.category : Option String))) =
        ((((category_counts reports_db).map
          (fun p => ⟨p.1.getD "", p.2⟩) :
        List IssueByCategory).map (fun i => i.category)).map Option.some) := by
      simp only [List.map_map]
      rfl
    rw [h2] at h1
    exact List.Nodup.of_map Option.some h1
  refine ⟨(category_counts reports_db).map (fun p => ⟨p.1.getD "", p.2⟩),
    hemit, by rw [hmap1, hkeys], hnodup, ?_, ?_⟩
  · intro i hi
    rcases List.mem_map.mp hi with ⟨p, hp, hpi⟩
    have hkey : (some i.category : Option String) = p.1 := by
      rw [← hpi]
      exact hkey_eq p hp
    have hcount : i.count = p.2 := by rw [← hpi]
    have hknodup : ((category_counts reports_db).map Prod.fst).Nodup := by
      rw [hkeys, first_seen]
      exact first_seen_from_nodup [] _
    have hentry : count_of (category_counts reports_db) p.1 = p.2 :=
      count_of_eq_of_mem _ p.1 p.2 hknodup (by
        have : p = (p.1, p.2) := rfl
        rw [← this]
        exact hp)
    have hcnt : count_of (category_counts reports_db) p.1 =
        cat_count (reports_db.map (fun r => r.category)) p.1 := by
      rw [hfold, foldl_bump_count_of]
      simp [count_of]
    rw [hcount, hkey, ← hentry, hcnt]
  · rw [List.map_map]
    have hproj : ((category_counts reports_db).map
        ((fun i : IssueByCategory => i.count) ∘ (fun p : Option String × Nat =>
          (⟨p.1.getD "", p.2⟩ : IssueByCategory)))) =
        (category_counts reports_db).map Prod.snd := rfl
    rw [hproj, hfold, foldl_bump_sum]
    simp

/-- Concrete instance of C8: two authority reports sharing one category. -/
theorem issues_by_category_spec_witness :
    ∃ items, issues_by_category
        [dict_of_report good_authority_report,
          dict_of_report streetlight_report] = Except.ok items ∧
      items.map (fun i => (some i.category : Option String)) =
        first_seen (([dict_of_report good_authority_report,
          dict_of_report streetlight_report] : List StoredReport).map
            (fun r => r.category)) ∧
      (items.map (fun i => i.category)).Nodup ∧
      (∀ i ∈ items, i.count =
        cat_count (([dict_of_report good_authority_report,
          dict_of_report streetlight_report] : List StoredReport).map
            (fun r => r.category)) (some i.category)) ∧
      (items.map (fun i => i.count)).sum =
        ([dict_of_report good_authority_report,
          dict_of_report streetlight_report] : List StoredReport).length :=
  issues_by_category_spec
    [dict_of_report good_authority_report, dict_of_report streetlight_report]
    (by decide)

end UrbanBackend
